import Mathlib

/-!
Shallow embedding of the merge-queue monitor's core logic
(generate_csv.py and merge_queue_monitor.py) and proofs about it.

Python datetimes are modelled by the structure DT below: calendar
fields plus an optional fixed utc-offset in minutes (none = zone-naive).
Python floats are modelled by exact rationals.
-/

/-- A Python datetime: calendar fields and an optional fixed utc offset
in minutes (tz = none models a zone-naive datetime). -/
structure DT where
  year : Nat
  month : Nat
  day : Nat
  hour : Nat
  minute : Nat
  second : Nat
  usec : Nat
  tz : Option Int
deriving DecidableEq, Repr

def isLeap (y : Nat) : Bool :=
  (y % 4 = 0 && y % 100 != 0) || y % 400 = 0

def daysInMonth (y m : Nat) : Nat :=
  if m = 2 then (if isLeap y then 29 else 28)
  else if m = 4 || m = 6 || m = 9 || m = 11 then 30
  else 31

/-- Days in years [1, y): the proleptic Gregorian day count before Jan 1 of year y. -/
def daysBeforeYear (y : Nat) : Nat :=
  (y - 1) * 365 + (y - 1) / 4 - (y - 1) / 100 + (y - 1) / 400

/-- Days in year y before the first day of month m. -/
def daysBeforeMonth (y m : Nat) : Nat :=
  (List.range' 1 (m - 1)).foldl (fun a k => a + daysInMonth y k) 0

/-- 0-based ordinal day number of a Gregorian date (0001-01-01 is day 0). -/
def toOrdinal (y m d : Nat) : Nat :=
  daysBeforeYear y + daysBeforeMonth y m + (d - 1)

/-- Locate the month and day-of-month for a 0-based day-of-year, scanning months. -/
def findMonthAux (y : Nat) : Nat → Nat → Nat → Nat × Nat
  | 0, m, doy => (m, doy + 1)
  | fuel + 1, m, doy =>
    if doy < daysInMonth y m then (m, doy + 1)
    else findMonthAux y fuel (m + 1) (doy - daysInMonth y m)

/-- Inverse of toOrdinal: Gregorian date of a 0-based ordinal day number. -/
def fromOrdinal (n : Nat) : Nat × Nat × Nat :=
  let n400 := n / 146097
  let r1 := n % 146097
  let n100 := min (r1 / 36524) 3
  let r2 := r1 - n100 * 36524
  let n4 := r2 / 1461
  let r3 := r2 % 1461
  let n1 := min (r3 / 365) 3
  let r4 := r3 - n1 * 365
  let y := n400 * 400 + n100 * 100 + n4 * 4 + n1 + 1
  let md := findMonthAux y 12 1 r4
  (y, md.1, md.2)

def digitVal (c : Char) : Option Nat :=
  if c.isDigit then some (c.toNat - 48) else none

def twoDigits (a b : Char) : Option Nat := do
  let x ← digitVal a
  let y ← digitVal b
  pure (x * 10 + y)

def fourDigits (a b c d : Char) : Option Nat := do
  let x ← twoDigits a b
  let y ← twoDigits c d
  pure (x * 100 + y)

def digitsToNat (ds : List Nat) : Nat :=
  ds.foldl (fun a d => a * 10 + d) 0

/-- Split the time portion of an ISO string at the first sign character,
as CPython's isoformat parser does: returns the clock part and, when a
sign was found, whether it was a minus and the characters after it. -/
def splitTz : List Char → List Char × Option (Bool × List Char)
  | [] => ([], none)
  | c :: rest =>
    if c = '+' then ([], some (false, rest))
    else if c = '-' then ([], some (true, rest))
    else
      let r := splitTz rest
      (c :: r.1, r.2)

/-- Parse a utc-offset body of the form HH:MM into signed minutes. -/
def parseTzOff (isMinus : Bool) : List Char → Option Int
  | o1 :: o2 :: ':' :: o3 :: o4 :: [] => do
    let oh ← twoDigits o1 o2
    let om ← twoDigits o3 o4
    guard (oh ≤ 23 ∧ om ≤ 59)
    let m : Int := (oh * 60 + om : Nat)
    pure (if isMinus then -m else m)
  | _ => none

/-- Parse a clock part HH:MM[:SS[.fff or .ffffff]] into hour, minute,
second and microseconds. -/
def parseHMS : List Char → Option (Nat × Nat × Nat × Nat)
  | h1 :: h2 :: ':' :: m1 :: m2 :: rest => do
    let h ← twoDigits h1 h2
    let mi ← twoDigits m1 m2
    guard (h ≤ 23 ∧ mi ≤ 59)
    match rest with
    | [] => pure (h, mi, 0, 0)
    | ':' :: s1 :: s2 :: rest2 => do
      let s ← twoDigits s1 s2
      guard (s ≤ 59)
      match rest2 with
      | [] => pure (h, mi, s, 0)
      | '.' :: frac => do
        let ds ← frac.mapM digitVal
        if ds.length = 6 then pure (h, mi, s, digitsToNat ds)
        else if ds.length = 3 then pure (h, mi, s, 1000 * digitsToNat ds)
        else none
      | _ => none
    | _ => none
  | _ => none

def parseTimePart (cs : List Char) : Option (Nat × Nat × Nat × Nat × Option Int) := do
  let st := splitTz cs
  let hms ← parseHMS st.1
  match st.2 with
  | none => pure (hms.1, hms.2.1, hms.2.2.1, hms.2.2.2, none)
  | some sgnRest => do
    let off ← parseTzOff sgnRest.1 sgnRest.2
    pure (hms.1, hms.2.1, hms.2.2.1, hms.2.2.2, some off)

/-- Model of Python datetime.fromisoformat on the formats this program
meets: YYYY-MM-DD, optionally followed by a separator and a clock part
with optional fractional seconds and optional numeric HH:MM offset. -/
def fromisoformat (str : String) : Option DT :=
  match str.toList with
  | y1 :: y2 :: y3 :: y4 :: '-' :: mo1 :: mo2 :: '-' :: d1 :: d2 :: rest => do
    let y ← fourDigits y1 y2 y3 y4
    let mo ← twoDigits mo1 mo2
    let d ← twoDigits d1 d2
    guard (1 ≤ y ∧ 1 ≤ mo ∧ mo ≤ 12 ∧ 1 ≤ d ∧ d ≤ daysInMonth y mo)
    match rest with
    | [] => pure ⟨y, mo, d, 0, 0, 0, 0, none⟩
    | sep :: timecs =>
      if sep = 'T' ∨ sep = ' ' then do
        let t ← parseTimePart timecs
        pure ⟨y, mo, d, t.1, t.2.1, t.2.2.1, t.2.2.2.1, t.2.2.2.2⟩
      else none
  | _ => none

/-- Python str.endswith on code points. -/
def strEndsWith (s suffix : String) : Bool :=
  suffix.data.isSuffixOf s.data

/-- Python membership test c in s on code points. -/
def strContainsChar (s : String) (c : Char) : Bool :=
  s.data.contains c

/-- Python s.replace with pattern Z and replacement +00:00: the pattern
is a single character, so replacement is pointwise. -/
def replaceZ (s : String) : String :=
  String.mk (s.data.flatMap fun c =>
    if c = 'Z' then ['+', '0', '0', ':', '0', '0'] else [c])

/-- Translation of parse_timestamp (generate_csv.py, lines 21-30). -/
def parse_timestamp (iso_timestamp : String) : Option DT :=
  if strEndsWith iso_timestamp "Z" then
    fromisoformat (replaceZ iso_timestamp)
  else if strContainsChar iso_timestamp '+' || strEndsWith iso_timestamp "00:00"
      || strEndsWith iso_timestamp "00" then
    fromisoformat iso_timestamp
  else
    (fromisoformat iso_timestamp).map fun d => { d with tz := some 0 }

/-- Microseconds since 0001-01-01T00:00:00 at the utc instant (naive
datetimes are taken at offset 0, matching naive-to-naive arithmetic). -/
def DT.utcUsec (d : DT) : Int :=
  ((toOrdinal d.year d.month d.day : Int) * 86400
      + (d.hour * 3600 + d.minute * 60 + d.second : Nat)) * 1000000
    + (d.usec : Int) - (d.tz.getD 0) * 60000000

/-- Python datetime subtraction in microseconds: defined when both sides
are aware or both naive, a TypeError (none) otherwise. -/
def dtSub (a b : DT) : Option Int :=
  if a.tz.isSome = b.tz.isSome then some (a.utcUsec - b.utcUsec) else none

/-- Python dt + timedelta(minutes = delta): shifts the wall-clock fields,
keeping the tz; none models the OverflowError outside years 1-9999. -/
def addMinutes (d : DT) (delta : Int) : Option DT :=
  let total : Int := (toOrdinal d.year d.month d.day : Int) * 1440
      + (d.hour * 60 + d.minute : Nat) + delta
  let days := total.fdiv 1440
  let rem := total.fmod 1440
  if 0 ≤ days then
    let ymd := fromOrdinal days.toNat
    if ymd.1 ≤ 9999 then
      some ⟨ymd.1, ymd.2.1, ymd.2.2, rem.toNat / 60, rem.toNat % 60,
            d.second, d.usec, d.tz⟩
    else none
  else none

def pad2 (n : Nat) : String :=
  if n < 10 then "0" ++ toString n else toString n

def pad4 (n : Nat) : String :=
  if n < 10 then "000" ++ toString n
  else if n < 100 then "00" ++ toString n
  else if n < 1000 then "0" ++ toString n
  else toString n

/-- strftime with format %Y-%m-%d. -/
def formatDate (d : DT) : String :=
  pad4 d.year ++ "-" ++ pad2 d.month ++ "-" ++ pad2 d.day

/-- strftime with format %H:%M:%S. -/
def formatTime (d : DT) : String :=
  pad2 d.hour ++ ":" ++ pad2 d.minute ++ ":" ++ pad2 d.second

/-! ## generate_csv.py: snapshot records and metric extraction -/

/-- Exact division of a rational by an integer constant, in a form the
kernel evaluates; models Python's float division x / k and equals x / k. -/
def ratDivNat (x : ℚ) (k : Nat) : ℚ :=
  Rat.divInt x.num (x.den * k)

theorem ratDivNat_eq (x : ℚ) (k : Nat) : ratDivNat x k = x / (k : ℚ) := by
  rw [ratDivNat, Rat.divInt_eq_div]
  push_cast
  rw [div_mul_eq_div_div, Rat.num_div_den]

/-- The ci_status object of a queue entry, as read by process_json_file:
only its ci_started_at field is consulted. -/
structure CiStatus where
  ci_started_at : Option String
deriving DecidableEq, Repr

/-- One element of a snapshot's entries list, as read by generate_csv.py:
estimated_time_to_merge_seconds may be absent or null (none), and the
ci_status object may be absent (none). -/
structure Entry where
  estimated_time_to_merge_seconds : Option Int
  ci_status : Option CiStatus
deriving DecidableEq, Repr

/-- A parsed snapshot JSON record, restricted to the fields generate_csv.py
reads: timestamp (absent = none), total_prs (absent = none), entries
(absent = empty list). -/
structure SnapshotData where
  timestamp : Option String
  total_prs : Option Int
  entries : List Entry
deriving DecidableEq, Repr

/-- One output row of the CSV, as built by process_json_file. -/
structure MetricRow where
  date_pst : String
  time_pst : String
  num_prs : Int
  estimated_clear_time_minutes : Option ℚ
  top_job_ci_runtime_minutes : Option ℚ
deriving DecidableEq, Repr

/-- Translation of calculate_ci_runtime (generate_csv.py, lines 33-46).
Except models the uncaught ValueError of a malformed timestamp and the
TypeError of naive-aware subtraction; both are caught by the caller. -/
def calculate_ci_runtime (ci_started_at : Option String) (current_time : DT) :
    Except Unit (Option ℚ) :=
  match ci_started_at with
  | none => Except.ok none
  | some s =>
    if s = "" then Except.ok none
    else match parse_timestamp s with
    | none => Except.error ()
    | some started =>
      match dtSub current_time started with
      | none => Except.error ()
      | some usec =>
        let runtime_seconds : ℚ := ratDivNat (usec : ℚ) 1000000
        if runtime_seconds < 0 then Except.ok none
        else Except.ok (some (ratDivNat runtime_seconds 60))

/-- Translation of calculate_queue_clear_time (generate_csv.py, lines 49-64). -/
def calculate_queue_clear_time (entries : List Entry) : Option ℚ :=
  match entries.getLast? with
  | none => none
  | some last_entry =>
    match last_entry.estimated_time_to_merge_seconds with
    | none => none
    | some estimated_seconds => some (ratDivNat (estimated_seconds : ℚ) 60)

/-- The top-job block of process_json_file (generate_csv.py, lines 90-98):
first entry only; a falsy (absent or empty) ci_started_at leaves the
runtime null without calling calculate_ci_runtime. -/
def topRuntime (entries : List Entry) (dt : DT) : Except Unit (Option ℚ) :=
  match entries with
  | [] => Except.ok none
  | top_entry :: _ =>
    match (top_entry.ci_status.getD ⟨none⟩).ci_started_at with
    | none => Except.ok none
    | some s =>
      if s = "" then Except.ok none
      else calculate_ci_runtime (some s) dt

/-- Translation of process_json_file (generate_csv.py, lines 67-110)
on an already-parsed record; none models both the missing-timestamp
early return and the catch-all except branch. -/
def process_json_file (data : SnapshotData) : Option MetricRow :=
  match data.timestamp with
  | none => none
  | some ts =>
    if ts = "" then none
    else match parse_timestamp ts with
    | none => none
    | some dt =>
      match addMinutes dt (-480) with
      | none => none
      | some dt_pst =>
        match topRuntime data.entries dt with
        | Except.error _ => none
        | Except.ok ci_runtime_minutes =>
          some {
            date_pst := formatDate dt_pst
            time_pst := formatTime dt_pst
            num_prs := data.total_prs.getD (data.entries.length : Int)
            estimated_clear_time_minutes := calculate_queue_clear_time data.entries
            top_job_ci_runtime_minutes := ci_runtime_minutes }

/-- The row-collection loop of generate_csv (generate_csv.py, lines 130-135):
rows of the snapshots whose extraction succeeded, in input order. -/
def assembleSeries (snaps : List SnapshotData) : List MetricRow :=
  snaps.filterMap process_json_file

/-- Summary mean of num_prs (generate_csv.py, line 159). -/
def avg_prs (rows : List MetricRow) : ℚ :=
  ((rows.map (fun r => r.num_prs)).sum : ℚ) / (rows.length : ℚ)

def clearTimes (rows : List MetricRow) : List ℚ :=
  rows.filterMap (fun r => r.estimated_clear_time_minutes)

def ciRuntimes (rows : List MetricRow) : List ℚ :=
  rows.filterMap (fun r => r.top_job_ci_runtime_minutes)

/-- Summary mean of the non-null clear times, 0 on an empty list
(generate_csv.py, lines 161-162). -/
def avg_clear_time (rows : List MetricRow) : ℚ :=
  let cs := clearTimes rows
  if cs = [] then 0 else cs.sum / (cs.length : ℚ)

/-- Summary mean of the non-null top-job runtimes, 0 on an empty list
(generate_csv.py, lines 164-165). -/
def avg_ci_runtime (rows : List MetricRow) : ℚ :=
  let cs := ciRuntimes rows
  if cs = [] then 0 else cs.sum / (cs.length : ℚ)

/-- The summary block of generate_csv (lines 137-139 and 157-170): no
summary is produced when no rows survive. -/
def summaryStats (rows : List MetricRow) : Option (ℚ × ℚ × ℚ) :=
  if rows = [] then none
  else some (avg_prs rows, avg_clear_time rows, avg_ci_runtime rows)

/-! ## merge_queue_monitor.py: check-run aggregation -/

/-- Python str.upper() on the ascii statuses this program meets:
character-wise uppercasing. -/
def pyUpper (s : String) : String :=
  String.mk (s.data.map Char.toUpper)

/-- Python string comparison a < b: lexicographic on code points. -/
def lexLt : List Char → List Char → Bool
  | [], [] => false
  | [], _ :: _ => true
  | _ :: _, [] => false
  | a :: as, b :: bs =>
    if a < b then true
    else if b < a then false
    else lexLt as bs

def pyStrLt (a b : String) : Bool :=
  lexLt a.data b.data

/-- One node of the status-check rollup contexts: a CheckRun carries
status and startedAt, a StatusContext carries neither (none). -/
structure CheckContext where
  status : Option String
  startedAt : Option String
deriving DecidableEq, Repr

/-- The statusCheckRollup object: its state and the contexts nodes list. -/
structure Rollup where
  state : Option String
  contexts : List CheckContext
deriving DecidableEq, Repr

/-- A head-commit object as read by process_check_runs: only its
statusCheckRollup field matters (absent or null = none). -/
structure HeadCommit where
  statusCheckRollup : Option Rollup
deriving DecidableEq, Repr

/-- The dictionary returned by process_check_runs; overall_state is
absent (none) on the empty early return. -/
structure CheckAgg where
  total : Nat
  in_progress : Nat
  completed : Nat
  queued : Nat
  overall_state : Option String
  ci_started_at : Option String
deriving DecidableEq, Repr

/-- One step of the loop of process_check_runs (merge_queue_monitor.py,
lines 128-145) on the state (in_progress, completed, queued, earliest). -/
def checkStep (acc : Nat × Nat × Nat × Option String) (context : CheckContext) :
    Nat × Nat × Nat × Option String :=
  let st := pyUpper (context.status.getD "")
  let counts : Nat × Nat × Nat :=
    if st = "IN_PROGRESS" then (acc.1 + 1, acc.2.1, acc.2.2.1)
    else if st = "COMPLETED" then (acc.1, acc.2.1 + 1, acc.2.2.1)
    else if st = "QUEUED" then (acc.1, acc.2.1, acc.2.2.1 + 1)
    else (acc.1, acc.2.1, acc.2.2.1)
  let earliest : Option String :=
    match context.startedAt with
    | none => acc.2.2.2
    | some started_at =>
      if started_at = "" then acc.2.2.2
      else match acc.2.2.2 with
        | none => some started_at
        | some e => if pyStrLt started_at e then some started_at else some e
  (counts.1, counts.2.1, counts.2.2, earliest)

def checkLoop (acc : Nat × Nat × Nat × Option String) :
    List CheckContext → Nat × Nat × Nat × Option String
  | [] => acc
  | c :: rest => checkLoop (checkStep acc c) rest

/-- Translation of MergeQueueMonitor.process_check_runs
(merge_queue_monitor.py, lines 115-155). -/
def process_check_runs (head_commit : Option HeadCommit) : CheckAgg :=
  match head_commit with
  | none => ⟨0, 0, 0, 0, none, none⟩
  | some hc =>
    match hc.statusCheckRollup with
    | none => ⟨0, 0, 0, 0, none, none⟩
    | some roll =>
      let r := checkLoop (0, 0, 0, none) roll.contexts
      ⟨roll.contexts.length, r.1, r.2.1, r.2.2.1,
        some (roll.state.getD "UNKNOWN"), r.2.2.2⟩

/-- The truthy startedAt strings of a contexts list, in order. -/
def startsOf (l : List CheckContext) : List String :=
  l.filterMap fun c =>
    match c.startedAt with
    | none => none
    | some s => if s = "" then none else some s

/-- The contexts list process_check_runs iterates over ([] when the
head commit or its rollup is absent). -/
def contextsOf (head_commit : Option HeadCommit) : List CheckContext :=
  match head_commit with
  | none => []
  | some hc =>
    match hc.statusCheckRollup with
    | none => []
    | some roll => roll.contexts

/-- Binary minimum for the code-point order, keeping the left argument
on ties (as the loop of process_check_runs does). -/
def minStr (a b : String) : String :=
  if pyStrLt b a then b else a

/-- Lexicographically least element of a string list, none when empty. -/
def lexMin : List String → Option String
  | [] => none
  | s :: rest => some (rest.foldl minStr s)

/-- A context counts toward one of the three buckets exactly when its
uppercased status is one of the three recognized values. -/
def recognized (context : CheckContext) : Bool :=
  let st := pyUpper (context.status.getD "")
  st = "IN_PROGRESS" || st = "COMPLETED" || st = "QUEUED"

/-! ## Order facts for the code-point comparison -/

theorem lexLt_irrefl (l : List Char) : lexLt l l = false := by
  induction l with
  | nil => rfl
  | cons a as ih => simp [lexLt, lt_irrefl, ih]

theorem lexLt_cons_iff (a b : Char) (as bs : List Char) :
    lexLt (a :: as) (b :: bs) = true ↔ (a < b ∨ (a = b ∧ lexLt as bs = true)) := by
  show (if a < b then true else if b < a then false else lexLt as bs) = true ↔ _
  split_ifs with h1 h2
  · simp [h1]
  · apply iff_of_false
    · simp
    · rintro (h | ⟨rfl, h⟩)
      · exact lt_asymm h2 h
      · exact lt_irrefl a h2
  · have hab : a = b := le_antisymm (not_lt.mp h2) (not_lt.mp h1)
    simp [hab, lt_irrefl]

theorem lexLt_trans :
    ∀ (a b c : List Char), lexLt a b = true → lexLt b c = true → lexLt a c = true
  | [], [], _, h, _ => by simp [lexLt] at h
  | _ :: _, [], _, h, _ => by simp [lexLt] at h
  | [], _ :: _, [], _, h => by simp [lexLt] at h
  | [], _ :: _, _ :: _, _, _ => by simp [lexLt]
  | _ :: _, _ :: _, [], _, h => by simp [lexLt] at h
  | a :: as, b :: bs, c :: cs, h1, h2 => by
    rw [lexLt_cons_iff] at h1 h2 ⊢
    rcases h1 with h1 | ⟨rfl, h1⟩
    · rcases h2 with h2 | ⟨rfl, h2⟩
      · exact Or.inl (lt_trans h1 h2)
      · exact Or.inl h1
    · rcases h2 with h2 | ⟨rfl, h2⟩
      · exact Or.inl h2
      · exact Or.inr ⟨rfl, lexLt_trans as bs cs h1 h2⟩

theorem lexLt_asymm (a b : List Char) (h : lexLt a b = true) : lexLt b a = false := by
  cases h' : lexLt b a
  · rfl
  · have := lexLt_trans a b a h h'
    rw [lexLt_irrefl] at this
    cases this

theorem lexLt_total :
    ∀ (a b : List Char), lexLt a b = false → lexLt b a = false → a = b
  | [], [], _, _ => rfl
  | [], _ :: _, h, _ => by simp [lexLt] at h
  | _ :: _, [], _, h => by simp [lexLt] at h
  | a :: as, b :: bs, h1, h2 => by
    have h1' := lexLt_cons_iff a b as bs
    have h2' := lexLt_cons_iff b a bs as
    rw [h1] at h1'
    rw [h2] at h2'
    have hab : ¬ a < b := fun h => by simp [h] at h1'
    have hba : ¬ b < a := fun h => by simp [h] at h2'
    have heq : a = b := le_antisymm (not_lt.mp hba) (not_lt.mp hab)
    subst heq
    have has : lexLt as bs = false := by
      cases h : lexLt as bs
      · rfl
      · simp [h] at h1'
    have hbs : lexLt bs as = false := by
      cases h : lexLt bs as
      · rfl
      · simp [h] at h2'
    rw [lexLt_total as bs has hbs]

/-- a is at most b in the code-point order. -/
def pyStrLe (a b : String) : Prop := pyStrLt b a = false

theorem pyStrLe_refl (a : String) : pyStrLe a a := lexLt_irrefl a.data

theorem pyStrLe_trans {a b c : String} (h1 : pyStrLe a b) (h2 : pyStrLe b c) :
    pyStrLe a c := by
  unfold pyStrLe pyStrLt at *
  cases h : lexLt c.data a.data
  · rfl
  · cases hcb : lexLt c.data b.data
    · cases hbc : lexLt b.data c.data
      · have := lexLt_total b.data c.data hbc hcb
        rw [← this] at h
        rw [h] at h1
        cases h1
      · have := lexLt_trans b.data c.data a.data hbc h
        rw [this] at h1
        cases h1
    · rw [hcb] at h2
      cases h2

theorem minStr_le_left (a b : String) : pyStrLe (minStr a b) a := by
  unfold minStr
  split_ifs with h
  · exact lexLt_asymm b.data a.data h
  · exact pyStrLe_refl a

theorem minStr_le_right (a b : String) : pyStrLe (minStr a b) b := by
  unfold minStr
  split_ifs with h
  · exact pyStrLe_refl b
  · show pyStrLt b a = false
    cases hb : pyStrLt b a
    · rfl
    · exact absurd hb h

theorem minStr_mem (a b : String) : minStr a b = a ∨ minStr a b = b := by
  unfold minStr
  split_ifs
  · exact Or.inr rfl
  · exact Or.inl rfl

theorem foldl_minStr_mem :
    ∀ (l : List String) (a : String), l.foldl minStr a = a ∨ l.foldl minStr a ∈ l
  | [], _ => Or.inl rfl
  | c :: rest, a => by
    have hfold : (c :: rest).foldl minStr a = rest.foldl minStr (minStr a c) := rfl
    rw [hfold]
    rcases foldl_minStr_mem rest (minStr a c) with h | h
    · rcases minStr_mem a c with h' | h'
      · exact Or.inl (h.trans h')
      · refine Or.inr ?_
        rw [h, h']
        exact List.mem_cons_self c rest
    · exact Or.inr (List.mem_cons_of_mem c h)

theorem foldl_minStr_le :
    ∀ (l : List String) (a : String),
      pyStrLe (l.foldl minStr a) a ∧ ∀ x ∈ l, pyStrLe (l.foldl minStr a) x
  | [], a => ⟨pyStrLe_refl a, by simp⟩
  | c :: rest, a => by
    obtain ⟨h1, h2⟩ := foldl_minStr_le rest (minStr a c)
    refine ⟨pyStrLe_trans h1 (minStr_le_left a c), ?_⟩
    intro x hx
    rcases List.mem_cons.mp hx with rfl | hx
    · exact pyStrLe_trans h1 (minStr_le_right a x)
    · exact h2 x hx

/-! ## Facts about the loop of process_check_runs -/

def isIP (c : CheckContext) : Bool := pyUpper (c.status.getD "") = "IN_PROGRESS"

def isCO (c : CheckContext) : Bool := pyUpper (c.status.getD "") = "COMPLETED"

def isQU (c : CheckContext) : Bool := pyUpper (c.status.getD "") = "QUEUED"

theorem checkStep_counts (acc : Nat × Nat × Nat × Option String) (ctx : CheckContext) :
    (checkStep acc ctx).1 = acc.1 + (if isIP ctx then 1 else 0)
    ∧ (checkStep acc ctx).2.1 = acc.2.1 + (if isCO ctx then 1 else 0)
    ∧ (checkStep acc ctx).2.2.1 = acc.2.2.1 + (if isQU ctx then 1 else 0) := by
  simp only [checkStep, isIP, isCO, isQU]
  split_ifs with h1 h2 h3 <;> simp_all

theorem recognized_iff (ctx : CheckContext) :
    recognized ctx = true ↔ (isIP ctx = true ∨ isCO ctx = true ∨ isQU ctx = true) := by
  simp [recognized, isIP, isCO, isQU, or_assoc]

theorem status_exclusive (ctx : CheckContext) :
    (if isIP ctx then 1 else 0) + (if isCO ctx then 1 else 0) + (if isQU ctx then 1 else 0)
      = if recognized ctx then 1 else 0 := by
  simp only [isIP, isCO, isQU, recognized]
  split_ifs <;> simp_all

theorem checkLoop_counts :
    ∀ (l : List CheckContext) (acc : Nat × Nat × Nat × Option String),
      (checkLoop acc l).1 = acc.1 + l.countP isIP
      ∧ (checkLoop acc l).2.1 = acc.2.1 + l.countP isCO
      ∧ (checkLoop acc l).2.2.1 = acc.2.2.1 + l.countP isQU
  | [], acc => by simp [checkLoop]
  | c :: rest, acc => by
    have hstep := checkStep_counts acc c
    have ih := checkLoop_counts rest (checkStep acc c)
    refine ⟨?_, ?_, ?_⟩ <;>
    · simp only [checkLoop, ih.1, ih.2.1, ih.2.2, hstep.1, hstep.2.1, hstep.2.2,
        List.countP_cons]
      split_ifs <;> omega

/-- Accumulator form of the earliest-start update of the loop. -/
def minAccStr (o : Option String) (s : String) : Option String :=
  match o with
  | none => some s
  | some e => some (minStr e s)

theorem checkStep_earliest (acc : Nat × Nat × Nat × Option String) (ctx : CheckContext) :
    (checkStep acc ctx).2.2.2
      = (match ctx.startedAt with
        | none => acc.2.2.2
        | some s => if s = "" then acc.2.2.2 else minAccStr acc.2.2.2 s) := by
  rcases hst : ctx.startedAt with _ | s
  · simp [checkStep, hst]
  · by_cases hs : s = ""
    · simp [checkStep, hst, hs]
    · rcases hacc : acc.2.2.2 with _ | e
      · simp [checkStep, hst, hs, hacc, minAccStr]
      · simp [checkStep, hst, hs, hacc, minAccStr, minStr, apply_ite some]

theorem checkLoop_earliest :
    ∀ (l : List CheckContext) (acc : Nat × Nat × Nat × Option String),
      (checkLoop acc l).2.2.2 = (startsOf l).foldl minAccStr acc.2.2.2
  | [], acc => rfl
  | c :: rest, acc => by
    have ih := checkLoop_earliest rest (checkStep acc c)
    have hstep := checkStep_earliest acc c
    show (checkLoop (checkStep acc c) rest).2.2.2 = _
    rw [ih, hstep]
    rcases hst : c.startedAt with _ | s
    · simp [startsOf, List.filterMap_cons, hst]
    · by_cases hs : s = ""
      · simp [startsOf, List.filterMap_cons, hst, hs]
      · simp [startsOf, List.filterMap_cons, hst, hs]

theorem foldl_minAccStr_some :
    ∀ (l : List String) (a : String),
      l.foldl minAccStr (some a) = some (l.foldl minStr a)
  | [], _ => rfl
  | c :: rest, a => by
    show rest.foldl minAccStr (minAccStr (some a) c) = _
    rw [show minAccStr (some a) c = some (minStr a c) from rfl,
      foldl_minAccStr_some rest (minStr a c)]
    rfl

theorem foldl_minAccStr_none (l : List String) :
    l.foldl minAccStr none = lexMin l := by
  cases l with
  | nil => rfl
  | cons a rest =>
    show rest.foldl minAccStr (minAccStr none a) = _
    rw [show minAccStr none a = some a from rfl, foldl_minAccStr_some rest a]
    rfl

theorem lexMin_spec (l : List String) :
    (lexMin l = none ↔ l = [])
    ∧ (∀ m, lexMin l = some m → m ∈ l ∧ ∀ x ∈ l, pyStrLe m x) := by
  cases l with
  | nil => simp [lexMin]
  | cons a rest =>
    refine ⟨by simp [lexMin], ?_⟩
    intro m hm
    have hm' : rest.foldl minStr a = m := by
      simpa [lexMin] using hm
    obtain ⟨h1, h2⟩ := foldl_minStr_le rest a
    constructor
    · rcases foldl_minStr_mem rest a with h | h
      · rw [← hm', h]
        exact List.mem_cons_self a rest
      · rw [← hm']
        exact List.mem_cons_of_mem a h
    · intro x hx
      rcases List.mem_cons.mp hx with rfl | hx
      · exact hm' ▸ h1
      · exact hm' ▸ h2 x hx

theorem countP_three_sum :
    ∀ (l : List CheckContext),
      l.countP isIP + l.countP isCO + l.countP isQU = l.countP recognized
  | [] => rfl
  | c :: rest => by
    have h := status_exclusive c
    have ih := countP_three_sum rest
    simp only [List.countP_cons]
    omega

/-- C10: for every head-commit input, the aggregate returned by
process_check_runs has nonnegative bucket counts, a total equal to the
number of context nodes (0 when there is no rollup), and
in_progress + completed + queued at most total, with equality exactly
when every context node's status, uppercased, is one of IN_PROGRESS,
COMPLETED, QUEUED. -/
theorem c10_check_agg_invariants (head_commit : Option HeadCommit) :
    0 ≤ (process_check_runs head_commit).in_progress
    ∧ 0 ≤ (process_check_runs head_commit).completed
    ∧ 0 ≤ (process_check_runs head_commit).queued
    ∧ (process_check_runs head_commit).total = (contextsOf head_commit).length
    ∧ (process_check_runs head_commit).in_progress
        + (process_check_runs head_commit).completed
        + (process_check_runs head_commit).queued
        ≤ (process_check_runs head_commit).total
    ∧ ((process_check_runs head_commit).in_progress
        + (process_check_runs head_commit).completed
        + (process_check_runs head_commit).queued
        = (process_check_runs head_commit).total
      ↔ ∀ ctx ∈ contextsOf head_commit, recognized ctx = true) := by
  rcases head_commit with _ | hc
  · simp [process_check_runs, contextsOf]
  rcases hroll : hc.statusCheckRollup with _ | roll
  · simp [process_check_runs, contextsOf, hroll]
  have hcounts := checkLoop_counts roll.contexts (0, 0, 0, none)
  have hsum := countP_three_sum roll.contexts
  simp only [process_check_runs, contextsOf, hroll]
  refine ⟨Nat.zero_le _, Nat.zero_le _, Nat.zero_le _, trivial, ?_, ?_⟩
  · rw [hcounts.1, hcounts.2.1, hcounts.2.2]
    simp only [Nat.zero_add]
    rw [hsum]
    exact List.countP_le_length _
  · rw [hcounts.1, hcounts.2.1, hcounts.2.2]
    simp only [Nat.zero_add]
    rw [hsum]
    exact List.countP_eq_length

/-- C10 applied at the empty input. -/
theorem c10_check_agg_invariants_witness :
    (process_check_runs none).total = (contextsOf none).length
    ∧ (process_check_runs none).in_progress + (process_check_runs none).completed
        + (process_check_runs none).queued ≤ (process_check_runs none).total :=
  ⟨(c10_check_agg_invariants none).2.2.2.1, (c10_check_agg_invariants none).2.2.2.2.1⟩

/-- A head commit whose two checks carry start strings in differing zone
representations; string order and instant order disagree on them. -/
def cxHead : HeadCommit :=
  ⟨some ⟨some "SUCCESS",
    [⟨some "COMPLETED", some "2024-01-01T15:00:00Z"⟩,
     ⟨some "COMPLETED", some "2024-01-01T19:00:00+05:00"⟩]⟩⟩

/-- C6 counterexample: on cxHead, process_check_runs returns the start
string 2024-01-01T15:00:00Z, yet the other run's start
2024-01-01T19:00:00+05:00 denotes the strictly earlier instant
(14:00 UTC versus 15:00 UTC), so the returned earliest-start is not the
minimum start Instant when representations differ. -/
theorem c6_counterexample :
    (process_check_runs (some cxHead)).ci_started_at = some "2024-01-01T15:00:00Z"
    ∧ parse_timestamp "2024-01-01T19:00:00+05:00"
        = some ⟨2024, 1, 1, 19, 0, 0, 0, some 300⟩
    ∧ parse_timestamp "2024-01-01T15:00:00Z"
        = some ⟨2024, 1, 1, 15, 0, 0, 0, some 0⟩
    ∧ DT.utcUsec ⟨2024, 1, 1, 19, 0, 0, 0, some 300⟩
        < DT.utcUsec ⟨2024, 1, 1, 15, 0, 0, 0, some 0⟩ := by
  decide

/-- C6 amended: the earliest-start returned by process_check_runs is the
lexicographically least (raw code-point order) of the non-empty start
strings of the context nodes, and none exactly when no run has a start;
it coincides with the minimum start Instant only when the string order
matches the instant order. -/
theorem c6_earliest_is_lex_min (head_commit : Option HeadCommit) :
    (process_check_runs head_commit).ci_started_at
      = lexMin (startsOf (contextsOf head_commit))
    ∧ ((process_check_runs head_commit).ci_started_at = none
      ↔ startsOf (contextsOf head_commit) = [])
    ∧ (∀ m, (process_check_runs head_commit).ci_started_at = some m →
        m ∈ startsOf (contextsOf head_commit)
        ∧ ∀ x ∈ startsOf (contextsOf head_commit), pyStrLe m x) := by
  have hmain : (process_check_runs head_commit).ci_started_at
      = lexMin (startsOf (contextsOf head_commit)) := by
    rcases head_commit with _ | hc
    · simp [process_check_runs, contextsOf, startsOf, lexMin]
    rcases hroll : hc.statusCheckRollup with _ | roll
    · simp [process_check_runs, contextsOf, hroll, startsOf, lexMin]
    simp only [process_check_runs, contextsOf, hroll]
    rw [checkLoop_earliest roll.contexts (0, 0, 0, none)]
    exact foldl_minAccStr_none (startsOf roll.contexts)
  refine ⟨hmain, ?_, ?_⟩
  · rw [hmain]
    constructor
    · intro h
      exact ((lexMin_spec _).1).mp h
    · intro h
      exact ((lexMin_spec _).1).mpr h
  · intro m hm
    rw [hmain] at hm
    exact (lexMin_spec _).2 m hm

/-- C6 amended, applied at cxHead: the returned string is among the start
strings and lexicographically below each of them. -/
theorem c6_earliest_is_lex_min_witness :
    "2024-01-01T15:00:00Z" ∈ startsOf (contextsOf (some cxHead))
    ∧ ∀ x ∈ startsOf (contextsOf (some cxHead)),
        pyStrLe "2024-01-01T15:00:00Z" x :=
  (c6_earliest_is_lex_min (some cxHead)).2.2 "2024-01-01T15:00:00Z" (by decide)

theorem queue_clear_time_of_last (entries : List Entry) (e : Entry) (s : Int)
    (h1 : entries.getLast? = some e)
    (h2 : e.estimated_time_to_merge_seconds = some s) :
    calculate_queue_clear_time entries = some ((s : ℚ) / 60) := by
  simp only [calculate_queue_clear_time, h1, h2, ratDivNat_eq]
  norm_num

/-- C3: estimated_clear_minutes is the last entry's
estimated-time-to-merge seconds divided by 60 (1800 seconds give 30.0
minutes) and is null exactly when the entries list is empty or the last
entry has no estimate. -/
theorem c3_queue_clear_time :
    (∀ (entries : List Entry) (e : Entry) (s : Int),
      entries.getLast? = some e → e.estimated_time_to_merge_seconds = some s →
      calculate_queue_clear_time entries = some ((s : ℚ) / 60))
    ∧ (∀ entries : List Entry,
      calculate_queue_clear_time entries = none ↔
        (entries = [] ∨ ∃ e, entries.getLast? = some e
          ∧ e.estimated_time_to_merge_seconds = none))
    ∧ (∀ (entries : List Entry) (e : Entry),
      entries.getLast? = some e → e.estimated_time_to_merge_seconds = some 1800 →
      calculate_queue_clear_time entries = some 30) := by
  refine ⟨queue_clear_time_of_last, ?_, ?_⟩
  · intro entries
    rcases h : entries.getLast? with _ | e
    · have : entries = [] := List.getLast?_eq_none_iff.mp h
      simp [calculate_queue_clear_time, h, this]
    · have hne : entries ≠ [] := by
        rintro rfl
        simp at h
      rcases hest : e.estimated_time_to_merge_seconds with _ | s
      · constructor
        · intro _
          exact Or.inr ⟨e, rfl, hest⟩
        · intro _
          simp [calculate_queue_clear_time, h, hest]
      · simp only [calculate_queue_clear_time, h, hest]
        constructor
        · intro hcontra
          simp at hcontra
        · rintro (rfl | ⟨e', he', hest'⟩)
          · simp at h
          · injection he' with he'
            subst he'
            rw [hest] at hest'
            cases hest'
  · intro entries e h1 h2
    rw [queue_clear_time_of_last entries e 1800 h1 h2]
    norm_num

/-- C3 applied at a one-entry queue with a 1800-second estimate and at
the empty queue. -/
theorem c3_queue_clear_time_witness :
    calculate_queue_clear_time [⟨some 1800, none⟩] = some 30
    ∧ calculate_queue_clear_time [] = none :=
  ⟨c3_queue_clear_time.2.2 [⟨some 1800, none⟩] ⟨some 1800, none⟩ rfl rfl,
   (c3_queue_clear_time.2.1 []).mpr (Or.inl rfl)⟩

/-- C7: the summary means over an empty set of non-null values are zero
(clear time and CI runtime), a summary exists exactly when some row
survived, and the num_entries value list of a summarized series is never
empty. -/
theorem c7_empty_mean_is_zero :
    (∀ rows : List MetricRow, clearTimes rows = [] → avg_clear_time rows = 0)
    ∧ (∀ rows : List MetricRow, ciRuntimes rows = [] → avg_ci_runtime rows = 0)
    ∧ (∀ rows : List MetricRow, (summaryStats rows).isSome ↔ rows ≠ [])
    ∧ (∀ rows : List MetricRow, rows ≠ [] →
        rows.map (fun r => r.num_prs) ≠ []) := by
  refine ⟨?_, ?_, ?_, ?_⟩
  · intro rows h
    simp [avg_clear_time, h]
  · intro rows h
    simp [avg_ci_runtime, h]
  · intro rows
    by_cases h : rows = [] <;> simp [summaryStats, h]
  · intro rows h
    simpa using h

/-- C7 applied at a one-row series with no non-null clear time and no
non-null CI runtime. -/
theorem c7_empty_mean_is_zero_witness :
    clearTimes [⟨"d", "t", 1, none, none⟩] = []
    ∧ avg_clear_time [⟨"d", "t", 1, none, none⟩] = 0
    ∧ avg_ci_runtime [⟨"d", "t", 1, none, none⟩] = 0 :=
  ⟨rfl, c7_empty_mean_is_zero.1 _ rfl, c7_empty_mean_is_zero.2.1 _ rfl⟩

theorem length_filterMap_isSome {α β : Type} (f : α → Option β) :
    ∀ l : List α, (l.filterMap f).length = l.countP (fun s => (f s).isSome)
  | [] => rfl
  | a :: l => by
    rcases h : f a with _ | b <;>
      simp [List.filterMap_cons, h, List.countP_cons, length_filterMap_isSome f l]

def snapGoodA : SnapshotData := ⟨some "2024-01-01T10:00:01", some 3, []⟩

def snapBadB : SnapshotData := ⟨some "not-a-timestamp", none, []⟩

def snapGoodC : SnapshotData := ⟨some "2024-01-02T10:00:01", some 4, []⟩

/-- C5: the assembled series is the in-order sequence of rows of the
snapshots whose extraction succeeded: a failing snapshot is dropped with
no placeholder and without affecting the rest, a succeeding snapshot
contributes exactly one row in place, and the series length counts the
successes. -/
theorem c5_series_assembly :
    (∀ snaps : List SnapshotData,
      assembleSeries snaps = (snaps.map process_json_file).reduceOption)
    ∧ (∀ (pre : List SnapshotData) (bad : SnapshotData) (post : List SnapshotData),
      process_json_file bad = none →
      assembleSeries (pre ++ bad :: post) = assembleSeries (pre ++ post))
    ∧ (∀ (s : SnapshotData) (snaps : List SnapshotData) (row : MetricRow),
      process_json_file s = some row →
      assembleSeries (s :: snaps) = row :: assembleSeries snaps)
    ∧ (∀ snaps : List SnapshotData,
      (assembleSeries snaps).length
        = snaps.countP (fun s => (process_json_file s).isSome)) := by
  refine ⟨?_, ?_, ?_, ?_⟩
  · intro snaps
    simp [assembleSeries, List.reduceOption, List.filterMap_map, Function.comp]
  · intro pre bad post h
    simp [assembleSeries, List.filterMap_append, List.filterMap_cons, h]
  · intro s snaps row h
    simp [assembleSeries, List.filterMap_cons, h]
  · intro snaps
    exact length_filterMap_isSome process_json_file snaps

/-- C5 applied at three snapshots whose middle one has a malformed
timestamp: the series is the two surviving rows in order. -/
theorem c5_series_assembly_witness :
    process_json_file snapBadB = none
    ∧ assembleSeries [snapGoodA, snapBadB, snapGoodC]
        = assembleSeries [snapGoodA, snapGoodC]
    ∧ (assembleSeries [snapGoodA, snapBadB, snapGoodC]).length = 2 := by
  refine ⟨by decide, ?_, ?_⟩
  · exact c5_series_assembly.2.1 [snapGoodA] snapBadB [snapGoodC] (by decide)
  · rw [c5_series_assembly.2.2.2 [snapGoodA, snapBadB, snapGoodC]]
    decide

/-- C8 counterexample: a record declaring total_prs = -1 is extracted
successfully and its row carries num_prs = -1, a negative value, so
num_entries is not always at least 0. -/
theorem c8_counterexample :
    process_json_file ⟨some "2024-01-01T12:00:01", some (-1), []⟩
      = some ⟨"2024-01-01", "04:00:01", -1, none, none⟩
    ∧ ¬ 0 ≤ (⟨"2024-01-01", "04:00:01", -1, none, none⟩ : MetricRow).num_prs := by
  decide

/-- C8 amended: num_entries equals the declared total when one is
provided and the length of the entries list otherwise; it is at least 0
whenever the declared total, if present, is nonnegative (so in
particular for exporter-produced records). -/
theorem c8_num_prs (data : SnapshotData) (row : MetricRow)
    (h : process_json_file data = some row) :
    row.num_prs = data.total_prs.getD (data.entries.length : Int)
    ∧ ((∀ t, data.total_prs = some t → 0 ≤ t) → 0 ≤ row.num_prs) := by
  have hval : row.num_prs = data.total_prs.getD (data.entries.length : Int) := by
    simp only [process_json_file] at h
    rcases hts : data.timestamp with _ | ts
    · simp [hts] at h
    simp only [hts] at h
    by_cases hts' : ts = ""
    · simp [hts'] at h
    simp only [if_neg hts'] at h
    rcases hp : parse_timestamp ts with _ | dt
    · simp [hp] at h
    simp only [hp] at h
    rcases ha : addMinutes dt (-480) with _ | dtp
    · simp [ha] at h
    simp only [ha] at h
    rcases htr : topRuntime data.entries dt with e | ci
    · simp [htr] at h
    simp only [htr] at h
    injection h with h
    rw [← h]
  refine ⟨hval, ?_⟩
  intro hnn
  rw [hval]
  rcases htp : data.total_prs with _ | t
  · simp [htp]
  · simp [htp]
    exact hnn t htp

/-- C8 amended, applied at a record declaring total_prs = 5. -/
theorem c8_num_prs_witness :
    (⟨"2024-01-01", "04:00:01", 5, none, none⟩ : MetricRow).num_prs
      = (⟨some "2024-01-01T12:00:01", some 5, []⟩ : SnapshotData).total_prs.getD
          ((⟨some "2024-01-01T12:00:01", some 5, []⟩ : SnapshotData).entries.length : Int)
    ∧ 0 ≤ (⟨"2024-01-01", "04:00:01", 5, none, none⟩ : MetricRow).num_prs := by
  have h := c8_num_prs ⟨some "2024-01-01T12:00:01", some 5, []⟩
      ⟨"2024-01-01", "04:00:01", 5, none, none⟩ (by decide)
  refine ⟨h.1, h.2 ?_⟩
  intro t ht
  injection ht with ht
  rw [← ht]
  decide

/-- C1: the normalizer does not always honor an explicit numeric offset
and does not always return a zone-aware value: the offset -05:30 is
replaced by UTC (changing the denoted instant), and a no-zone string
whose seconds read 00 is returned zone-naive rather than as UTC. -/
theorem c1_parse_timestamp_violations :
    parse_timestamp "2024-01-01T10:00:00-05:30"
      = some ⟨2024, 1, 1, 10, 0, 0, 0, some 0⟩
    ∧ fromisoformat "2024-01-01T10:00:00-05:30"
      = some ⟨2024, 1, 1, 10, 0, 0, 0, some (-330)⟩
    ∧ DT.utcUsec ⟨2024, 1, 1, 10, 0, 0, 0, some 0⟩
      ≠ DT.utcUsec ⟨2024, 1, 1, 10, 0, 0, 0, some (-330)⟩
    ∧ parse_timestamp "2024-01-01T12:00:00"
      = some ⟨2024, 1, 1, 12, 0, 0, 0, none⟩ := by
  decide

/-- C9: a no-zone-marker string the normalizer accepts is returned
zone-naive (tz = none), so its result is not a zone-aware Instant and
the canonical-UTC re-normalization round trip is not available for it. -/
theorem c9_accepted_but_naive :
    parse_timestamp "2024-06-15T08:30:00" = some ⟨2024, 6, 15, 8, 30, 0, 0, none⟩
    ∧ (⟨2024, 6, 15, 8, 30, 0, 0, none⟩ : DT).tz = none := by
  decide

theorem calculate_ci_runtime_of_aware (s : String) (T S : DT)
    (hs : s ≠ "") (hS : parse_timestamp s = some S)
    (hTz : T.tz.isSome = true) (hSz : S.tz.isSome = true) :
    calculate_ci_runtime (some s) T
      = (if ratDivNat ((T.utcUsec - S.utcUsec : Int) : ℚ) 1000000 < 0
        then Except.ok none
        else Except.ok (some (ratDivNat
          (ratDivNat ((T.utcUsec - S.utcUsec : Int) : ℚ) 1000000) 60))) := by
  simp only [calculate_ci_runtime, if_neg hs, hS, dtSub, hTz, hSz,
    eq_self_iff_true, if_true]

theorem topRuntime_of_first (s : String) (est : Option Int) (es : List Entry)
    (T : DT) (hs : s ≠ "") :
    topRuntime (⟨est, some ⟨some s⟩⟩ :: es) T = calculate_ci_runtime (some s) T := by
  simp only [topRuntime, Option.getD, if_neg hs]

/-- C2: for a snapshot whose observation instant T and whose first
entry's CI start instant S are both zone-aware with S at or before T,
the extracted row's top-job runtime is (T - S) expressed in minutes;
the remaining fields come from the -8 hour display shift and the other
extractors. -/
theorem c2_top_runtime (ts s : String) (tp est : Option Int) (es : List Entry)
    (T S Tp : DT)
    (hT : parse_timestamp ts = some T) (hTz : T.tz.isSome = true)
    (hs : s ≠ "") (hS : parse_timestamp s = some S) (hSz : S.tz.isSome = true)
    (hle : S.utcUsec ≤ T.utcUsec)
    (hshift : addMinutes T (-480) = some Tp) :
    process_json_file ⟨some ts, tp, ⟨est, some ⟨some s⟩⟩ :: es⟩
      = some ⟨formatDate Tp, formatTime Tp,
          tp.getD ((es.length + 1 : Nat) : Int),
          calculate_queue_clear_time (⟨est, some ⟨some s⟩⟩ :: es),
          some (((T.utcUsec - S.utcUsec : Int) : ℚ) / 1000000 / 60)⟩ := by
  have hts : ts ≠ "" := by
    rintro rfl
    rw [show parse_timestamp "" = none from rfl] at hT
    cases hT
  have hnn : ¬ ratDivNat ((T.utcUsec - S.utcUsec : Int) : ℚ) 1000000 < 0 := by
    rw [ratDivNat_eq]
    apply not_lt.mpr
    apply div_nonneg
    · exact_mod_cast sub_nonneg.mpr hle
    · norm_num
  have htr : topRuntime (⟨est, some ⟨some s⟩⟩ :: es) T
      = Except.ok (some (ratDivNat
        (ratDivNat ((T.utcUsec - S.utcUsec : Int) : ℚ) 1000000) 60)) := by
    rw [topRuntime_of_first s est es T hs,
      calculate_ci_runtime_of_aware s T S hs hS hTz hSz, if_neg hnn]
  simp only [process_json_file, if_neg hts, hT, hshift, htr, List.length_cons]
  rw [ratDivNat_eq, ratDivNat_eq]
  norm_num

/-- C2 applied at the end-to-end example of the spec: observation
2024-01-01T20:00:00Z, one entry whose check started at
2024-01-01T19:30:00Z, giving 30.0 minutes and the -8 hour display date
2024-01-01 and time 12:00:00. -/
theorem c2_top_runtime_witness :
    process_json_file ⟨some "2024-01-01T20:00:00Z", some 1,
        [⟨none, some ⟨some "2024-01-01T19:30:00Z"⟩⟩]⟩
      = some ⟨"2024-01-01", "12:00:00", 1, none, some 30⟩ := by
  have h := c2_top_runtime "2024-01-01T20:00:00Z" "2024-01-01T19:30:00Z"
      (some 1) none [] ⟨2024, 1, 1, 20, 0, 0, 0, some 0⟩
      ⟨2024, 1, 1, 19, 30, 0, 0, some 0⟩ ⟨2024, 1, 1, 12, 0, 0, 0, some 0⟩
      (by decide) (by decide) (by decide) (by decide) (by decide) (by decide)
      (by decide)
  refine h.trans ?_
  have h1 : formatDate ⟨2024, 1, 1, 12, 0, 0, 0, some 0⟩ = "2024-01-01" := by decide
  have h2 : formatTime ⟨2024, 1, 1, 12, 0, 0, 0, some 0⟩ = "12:00:00" := by decide
  have h3 : calculate_queue_clear_time [⟨none, some ⟨some "2024-01-01T19:30:00Z"⟩⟩]
      = none := by decide
  have hu : DT.utcUsec ⟨2024, 1, 1, 20, 0, 0, 0, some 0⟩
      - DT.utcUsec ⟨2024, 1, 1, 19, 30, 0, 0, some 0⟩ = 1800000000 := by decide
  rw [h1, h2, h3, hu]
  norm_num

theorem ci_runtime_nonneg (x : Option String) (dt : DT) (q : ℚ)
    (h : calculate_ci_runtime x dt = Except.ok (some q)) : 0 ≤ q := by
  simp only [calculate_ci_runtime] at h
  rcases x with _ | s
  · simp at h
  by_cases hs : s = ""
  · simp [hs] at h
  simp only [if_neg hs] at h
  rcases hp : parse_timestamp s with _ | started
  · simp [hp] at h
  simp only [hp] at h
  rcases hd : dtSub dt started with _ | usec
  · simp [hd] at h
  simp only [hd] at h
  by_cases hneg : ratDivNat ((usec : Int) : ℚ) 1000000 < 0
  · simp [hneg] at h
  · simp only [if_neg hneg] at h
    injection h with h
    injection h with h
    rw [← h, ratDivNat_eq]
    exact div_nonneg (not_lt.mp hneg) (by norm_num)

theorem topRuntime_nonneg (entries : List Entry) (dt : DT) (q : ℚ)
    (h : topRuntime entries dt = Except.ok (some q)) : 0 ≤ q := by
  rcases entries with _ | ⟨top, rest⟩
  · simp [topRuntime] at h
  simp only [topRuntime] at h
  rcases hci : (top.ci_status.getD ⟨none⟩).ci_started_at with _ | s
  · simp [hci] at h
  simp only [hci] at h
  by_cases hs : s = ""
  · simp [hs] at h
  simp only [if_neg hs] at h
  exact ci_runtime_nonneg (some s) dt q h

/-- C4: a snapshot whose top entry's CI start instant is strictly after
the observation instant yields a row whose top-job runtime is null, and
no extracted row ever carries a negative top-job runtime. -/
theorem c4_no_negative_runtime :
    (∀ (ts s : String) (tp est : Option Int) (es : List Entry) (T S Tp : DT),
      parse_timestamp ts = some T → T.tz.isSome = true →
      s ≠ "" → parse_timestamp s = some S → S.tz.isSome = true →
      T.utcUsec < S.utcUsec →
      addMinutes T (-480) = some Tp →
      process_json_file ⟨some ts, tp, ⟨est, some ⟨some s⟩⟩ :: es⟩
        = some ⟨formatDate Tp, formatTime Tp,
            tp.getD ((es.length + 1 : Nat) : Int),
            calculate_queue_clear_time (⟨est, some ⟨some s⟩⟩ :: es), none⟩)
    ∧ (∀ (data : SnapshotData) (row : MetricRow) (q : ℚ),
      process_json_file data = some row →
      row.top_job_ci_runtime_minutes = some q → 0 ≤ q) := by
  constructor
  · intro ts s tp est es T S Tp hT hTz hs hS hSz hlt hshift
    have hts : ts ≠ "" := by
      rintro rfl
      rw [show parse_timestamp "" = none from rfl] at hT
      cases hT
    have hneg : ratDivNat ((T.utcUsec - S.utcUsec : Int) : ℚ) 1000000 < 0 := by
      rw [ratDivNat_eq]
      apply div_neg_of_neg_of_pos
      · exact_mod_cast sub_neg.mpr hlt
      · norm_num
    have htr : topRuntime (⟨est, some ⟨some s⟩⟩ :: es) T = Except.ok none := by
      rw [topRuntime_of_first s est es T hs,
        calculate_ci_runtime_of_aware s T S hs hS hTz hSz, if_pos hneg]
    simp only [process_json_file, if_neg hts, hT, hshift, htr, List.length_cons]
  · intro data row q h hq
    simp only [process_json_file] at h
    rcases hts : data.timestamp with _ | ts
    · simp [hts] at h
    simp only [hts] at h
    by_cases hts' : ts = ""
    · simp [hts'] at h
    simp only [if_neg hts'] at h
    rcases hp : parse_timestamp ts with _ | dt
    · simp [hp] at h
    simp only [hp] at h
    rcases ha : addMinutes dt (-480) with _ | dtp
    · simp [ha] at h
    simp only [ha] at h
    rcases htr : topRuntime data.entries dt with e | ci
    · simp [htr] at h
    simp only [htr] at h
    injection h with h
    rw [← h] at hq
    have hq' : ci = some q := hq
    exact topRuntime_nonneg data.entries dt q (hq' ▸ htr)

/-- C4 applied at a snapshot observed at 20:00 UTC whose single check
reports a 21:00 UTC start: the row exists and its runtime is null; and
the nonnegativity part applied at the 30-minute example row. -/
theorem c4_no_negative_runtime_witness :
    process_json_file ⟨some "2024-01-01T20:00:00Z", some 1,
        [⟨none, some ⟨some "2024-01-01T21:00:00Z"⟩⟩]⟩
      = some ⟨"2024-01-01", "12:00:00", 1, none, none⟩
    ∧ (0 : ℚ) ≤ 30 := by
  constructor
  · have h := c4_no_negative_runtime.1 "2024-01-01T20:00:00Z" "2024-01-01T21:00:00Z"
        (some 1) none [] ⟨2024, 1, 1, 20, 0, 0, 0, some 0⟩
        ⟨2024, 1, 1, 21, 0, 0, 0, some 0⟩ ⟨2024, 1, 1, 12, 0, 0, 0, some 0⟩
        (by decide) (by decide) (by decide) (by decide) (by decide) (by decide)
        (by decide)
    refine h.trans ?_
    have h1 : formatDate ⟨2024, 1, 1, 12, 0, 0, 0, some 0⟩ = "2024-01-01" := by decide
    have h2 : formatTime ⟨2024, 1, 1, 12, 0, 0, 0, some 0⟩ = "12:00:00" := by decide
    have h3 : calculate_queue_clear_time [⟨none, some ⟨some "2024-01-01T21:00:00Z"⟩⟩]
        = none := by decide
    rw [h1, h2, h3]
    rfl
  · exact c4_no_negative_runtime.2
      ⟨some "2024-01-01T20:00:00Z", some 1,
        [⟨none, some ⟨some "2024-01-01T19:30:00Z"⟩⟩]⟩
      ⟨"2024-01-01", "12:00:00", 1, none, some 30⟩ 30 (by decide) rfl

example : parse_timestamp "2024-01-01T20:00:00Z"
    = some ⟨2024, 1, 1, 20, 0, 0, 0, some 0⟩ := by decide

example : process_json_file
    ⟨some "2024-01-01T20:00:00Z", some 1, [⟨none, some ⟨some "2024-01-01T19:30:00Z"⟩⟩]⟩
    = some ⟨"2024-01-01", "12:00:00", 1, none, some 30⟩ := by decide

example : process_json_file ⟨some "not-a-timestamp", none, []⟩ = none := by decide

example : process_json_file ⟨some "2024-01-01T12:00:01", some (-1), []⟩
    = some ⟨"2024-01-01", "04:00:01", -1, none, none⟩ := by decide

example : calculate_queue_clear_time [⟨some 1800, none⟩] = some 30 := by decide

example : process_check_runs (some ⟨some ⟨some "SUCCESS",
    [⟨some "COMPLETED", some "2024-01-01T15:00:00Z"⟩,
     ⟨some "COMPLETED", some "2024-01-01T19:00:00+05:00"⟩]⟩⟩)
    = ⟨2, 0, 2, 0, some "SUCCESS", some "2024-01-01T15:00:00Z"⟩ := by decide
example : parse_timestamp "2024-01-01T12:00:00"
    = some ⟨2024, 1, 1, 12, 0, 0, 0, none⟩ := by decide
example : parse_timestamp "2024-01-01T10:00:00-05:30"
    = some ⟨2024, 1, 1, 10, 0, 0, 0, some 0⟩ := by decide
example : fromisoformat "2024-01-01T10:00:00-05:30"
    = some ⟨2024, 1, 1, 10, 0, 0, 0, some (-330)⟩ := by decide
example : parse_timestamp "not-a-timestamp" = none := by decide
example : parse_timestamp "2024-01-01T12:00:00-05:00"
    = some ⟨2024, 1, 1, 12, 0, 0, 0, some (-300)⟩ := by decide
